import Mathlib

/-!
# Verification of the `claudementor` mentoring-report pipeline

A shallow embedding, in Lean 4, of the pure computational core of the
`claudementor` repository (a Python pipeline that generates 11-section
mentoring reports for Greek SMEs), together with theorems settling a
fixed list of claims about it.

Conventions of the embedding:

* Python strings are Lean `String`s; `str.lower()` is modelled by `pyLower`
  (ASCII and Greek, including the final-sigma rule of CPython's `lower`),
  `str.strip()` by `pyStrip`, `str.split(sep)` by `pySplit` and
  `sub in s` by `strContains` — all structurally recursive so that every
  definition evaluates inside the kernel.
* External effects (the LLM CLI, the Graph API, the filesystem, the clock)
  are passed in as explicit arguments/oracles, and writes performed by a
  function are returned as explicit data, so every function is pure and
  executable.
* `None`-able Python values are `Option`s; Python dicts with string keys
  are association lists updated with dict semantics.
-/

namespace ClaudeMentor

/-! ## Python string primitives -/

/-- Lowercasing of a single character as CPython's `str.lower` maps it,
restricted to the alphabets used by this repository: ASCII letters and the
Greek alphabet (plain and accented capitals).  `Σ` is handled separately
at string level because its lowercase form is contextual. -/
def pyLowerChar (c : Char) : Char :=
  if c.toNat ≥ 65 ∧ c.toNat ≤ 90 then Char.ofNat (c.toNat + 32)
  else
    match c with
    | 'Α' => 'α' | 'Β' => 'β' | 'Γ' => 'γ' | 'Δ' => 'δ' | 'Ε' => 'ε'
    | 'Ζ' => 'ζ' | 'Η' => 'η' | 'Θ' => 'θ' | 'Ι' => 'ι' | 'Κ' => 'κ'
    | 'Λ' => 'λ' | 'Μ' => 'μ' | 'Ν' => 'ν' | 'Ξ' => 'ξ' | 'Ο' => 'ο'
    | 'Π' => 'π' | 'Ρ' => 'ρ' | 'Τ' => 'τ' | 'Υ' => 'υ' | 'Φ' => 'φ'
    | 'Χ' => 'χ' | 'Ψ' => 'ψ' | 'Ω' => 'ω'
    | 'Ά' => 'ά' | 'Έ' => 'έ' | 'Ή' => 'ή' | 'Ί' => 'ί' | 'Ό' => 'ό'
    | 'Ύ' => 'ύ' | 'Ώ' => 'ώ' | 'Ϊ' => 'ϊ' | 'Ϋ' => 'ϋ'
    | _ => c

/-- Whether a character is cased, for the purpose of the final-sigma rule
(ASCII letters and the Greek block). -/
def pyIsCased (c : Char) : Bool :=
  (c.toNat ≥ 65 ∧ c.toNat ≤ 90) ∨ (c.toNat ≥ 97 ∧ c.toNat ≤ 122) ∨
    (c.toNat ≥ 0x370 ∧ c.toNat ≤ 0x3FF) ∨ (c.toNat ≥ 0x1F00 ∧ c.toNat ≤ 0x1FFF)

/-- Character-list worker for `pyLower`; the boolean records whether the
previous character was cased (CPython lowers `Σ` to final `ς` exactly when
it follows a cased character and is not followed by one). -/
def pyLowerAux : Bool → List Char → List Char
  | _, [] => []
  | prevCased, c :: rest =>
    if c = 'Σ' then
      (if prevCased ∧ ¬ (rest.head?.elim false pyIsCased) then 'ς' else 'σ')
        :: pyLowerAux true rest
    else
      pyLowerChar c :: pyLowerAux (pyIsCased c) rest

/-- Python `str.lower()`, on the alphabets this repository uses. -/
def pyLower (s : String) : String :=
  ⟨pyLowerAux false s.toList⟩

/-- Index of the first occurrence of `needle` as a contiguous sublist of
`hay` (`str.find` of Python, as a list function). -/
def findSub (needle : List Char) : List Char → Option Nat
  | [] => if needle = [] then some 0 else none
  | c :: rest =>
    if needle.isPrefixOf (c :: rest) then some 0
    else (findSub needle rest).map (· + 1)

/-- Python's `sub in s` substring test. -/
def strContains (hay sub : String) : Bool :=
  (findSub sub.toList hay.toList).isSome

/-- Characters Python's `str.strip()` removes (ASCII whitespace). -/
def pyIsSpace (c : Char) : Bool :=
  c = ' ' ∨ c = '\t' ∨ c = '\n' ∨ c = '\r' ∨ c = '\x0b' ∨ c = '\x0c'

/-- Python `str.strip()`: drop leading and trailing whitespace. -/
def pyStrip (s : String) : String :=
  ⟨((s.toList.dropWhile pyIsSpace).reverse.dropWhile pyIsSpace).reverse⟩

/-- Worker for `pySplit`; `fuel` only bounds the recursion (it starts at
the length of the string, and every step consumes at least one
character), `cur` accumulates the current piece reversed. -/
def pySplitAux (sep : List Char) : Nat → List Char → List Char →
    List (List Char)
  | 0, cs, cur => [cur.reverse ++ cs]
  | _ + 1, [], cur => [cur.reverse]
  | fuel + 1, c :: rest, cur =>
    if sep ≠ [] ∧ sep.isPrefixOf (c :: rest) then
      cur.reverse :: pySplitAux sep fuel ((c :: rest).drop sep.length) []
    else
      pySplitAux sep fuel rest (c :: cur)

/-- Python `s.split(sep)` for a non-empty separator. -/
def pySplit (s sep : String) : List String :=
  (pySplitAux sep.toList s.toList.length s.toList []).map fun cs => ⟨cs⟩

/-! ## C9 — `extract_afm` (`generate_mentoring_report_auto.py`, lines 93-108) -/

/-- The directory argument of `extract_afm`: its own name and its parent's
name are all the function looks at. -/
structure DirPath where
  name : String
  parentName : String
deriving DecidableEq, Repr

/-- Python `re.match(r'^\d{9}$', s)` on an already-stripped string:
exactly nine decimal digits. -/
def isNineDigits (s : String) : Bool :=
  s.toList.length = 9 ∧ s.toList.all Char.isDigit

/-- The `for part in parts` loop of `extract_afm`: return the first
stripped part that is exactly nine digits, else fall through to
`"unknown"`. -/
def afmLoop : List String → String
  | [] => "unknown"
  | p :: rest => if isNineDigits (pyStrip p) then pyStrip p else afmLoop rest

/-- `extract_afm(directory, provided_afm)`.  Note the Python guard is
`if provided_afm:`, which is false both for `None` and for the empty
string. -/
def extract_afm (dir : DirPath) (provided_afm : Option String) : String :=
  if provided_afm.elim false (· ≠ "") then provided_afm.getD ""
  else
    let dir_name := if dir.name = "mentoring" then dir.parentName else dir.name
    afmLoop (pySplit dir_name " - ")

/-- The folder-name extraction, phrased the way the claim phrases it:
the first part that, after stripping, is exactly nine decimal digits. -/
def afmFromNameSpec (dirName : String) : String :=
  ((pySplit dirName " - ").find? (fun p => isNineDigits (pyStrip p))).elim
    "unknown" pyStrip

theorem afmLoop_eq_spec (parts : List String) :
    afmLoop parts = (parts.find? (fun p => isNineDigits (pyStrip p))).elim
      "unknown" pyStrip := by
  induction parts with
  | nil => rfl
  | cons p rest ih =>
    by_cases h : isNineDigits (pyStrip p) = true
    · simp [afmLoop, List.find?, h]
    · simp only [Bool.not_eq_true] at h
      simp [afmLoop, List.find?, h, ih]

/-- C9 counterexample: the claim says `extract_afm` returns the provided AFM
whenever one is given, but the Python guard `if provided_afm:` is falsy for
the empty string, so a provided empty AFM is ignored and the folder-name
fallback runs instead: here it yields `"unknown"`, not `""`. -/
theorem C9_counterexample :
    extract_afm ⟨"ACME Corp", "Clients"⟩ (some "") = "unknown" ∧
      ("unknown" : String) ≠ "" := by
  constructor
  · rfl
  · decide

/-- C9 (amended): `extract_afm` returns the provided AFM whenever a
non-empty one is given; when none is provided (or the provided one is the
empty string) it splits the directory name — or the parent directory's
name when the directory is named `mentoring` — on `" - "` and returns the
first part that, after stripping, is exactly nine decimal digits, and
`"unknown"` when no such part exists. -/
theorem C9_extract_afm (dir : DirPath) (provided : Option String) :
    (∀ s, provided = some s → s ≠ "" → extract_afm dir provided = s) ∧
    ((provided = none ∨ provided = some "") →
      extract_afm dir provided =
        afmFromNameSpec (if dir.name = "mentoring" then dir.parentName
          else dir.name)) := by
  constructor
  · intro s hs hne
    subst hs
    simp [extract_afm, hne]
  · intro h
    rcases h with h | h <;> subst h <;>
      simp [extract_afm, afmFromNameSpec, afmLoop_eq_spec]

/-- Witness for `C9_extract_afm` at concrete inputs: a non-empty provided
AFM wins, and with no provided AFM the nine-digit part of the folder name
is extracted. -/
theorem C9_witness :
    extract_afm ⟨"mentoring", "Foo - 123456789"⟩ (some "987654321") =
        "987654321" ∧
      extract_afm ⟨"Foo - 123456789", "X"⟩ none = "123456789" := by
  constructor
  · exact (C9_extract_afm ⟨"mentoring", "Foo - 123456789"⟩
      (some "987654321")).1 "987654321" rfl (by decide)
  · rw [(C9_extract_afm ⟨"Foo - 123456789", "X"⟩ none).2 (Or.inl rfl)]
    rfl

/-! ## C5 — key figures of `extract_excel_data`
(`preprocess_documents.py`, lines 67-97) -/

/-- A worksheet cell value as seen through
`iter_rows(values_only=True)`: a string, an int, a float (modelled as a
rational: the code only tests these values for truthiness), or an empty
cell (`None`). -/
inductive CellValue where
  | str : String → CellValue
  | int : Int → CellValue
  | float : ℚ → CellValue
  | empty : CellValue
deriving DecidableEq, Repr

/-- The fixed keyword list `financial_keywords` of `extract_excel_data`. -/
def financial_keywords : List String :=
  ["έσοδα", "έξοδα", "κέρδος", "ζημία", "revenue", "expenses",
   "profit", "loss", "σύνολο", "total", "υπόλοιπο", "balance"]

/-- `any(keyword in cell_lower for keyword in financial_keywords)` with
`cell_lower = cell.lower()`. -/
def cellKeywordMatch (s : String) : Bool :=
  financial_keywords.any (fun kw => strContains (pyLower s) kw)

/-- Python `next_val and isinstance(next_val, (int, float))`: a numeric
cell that is also truthy (zero is falsy). -/
def isTruthyNumber : CellValue → Bool
  | .int n => n ≠ 0
  | .float q => q ≠ 0
  | _ => false

/-- `isinstance(v, (int, float))` alone, as the claim words it. -/
def isNumberCell : CellValue → Bool
  | .int _ => true
  | .float _ => true
  | _ => false

/-- One entry of the `key_figures` list: `{label, value, location}`. -/
structure KeyFigure where
  label : String
  value : CellValue
  location : String
deriving DecidableEq, Repr

/-- The `location` field: the f-string `"Row {row_idx}"`. -/
def rowLoc (rowIdx : Nat) : String := "Row " ++ toString rowIdx

/-- The guard `if cell and isinstance(cell, str)` followed by the keyword
test, for a string cell: truthy (non-empty) and matching a keyword. -/
def isKeywordStr (s : String) : Bool :=
  (s ≠ "") ∧ cellKeywordMatch s

/-- The inner `for col_idx, cell in enumerate(row, 1)` loop: a keyword
string cell (truthy, i.e. non-empty) followed by a truthy numeric cell in
the same row records a key figure; `row[col_idx]` with 1-based `col_idx`
is the immediately following cell, absent for the last column. -/
def rowKeyFigures (rowIdx : Nat) : List CellValue → List KeyFigure
  | [] => []
  | CellValue.str s :: rest =>
    (if isKeywordStr s then
      match rest.head? with
      | some v => if isTruthyNumber v then [⟨s, v, rowLoc rowIdx⟩] else []
      | none => []
    else []) ++ rowKeyFigures rowIdx rest
  | _ :: rest => rowKeyFigures rowIdx rest

/-- The outer `for row_idx, row in enumerate(ws.iter_rows(...), 1)` loop,
started at row index `n`. -/
def sheetKeyFiguresFrom (n : Nat) : List (List CellValue) → List KeyFigure
  | [] => []
  | row :: rows => rowKeyFigures n row ++ sheetKeyFiguresFrom (n + 1) rows

/-- The `key_figures` computation of `extract_excel_data` for one
worksheet (rows enumerated from 1). -/
def extract_excel_key_figures (rows : List (List CellValue)) :
    List KeyFigure :=
  sheetKeyFiguresFrom 1 rows

/-- The claim's membership condition for a key figure, exactly as stated:
keyword cell followed by a cell holding a numeric value (int or float),
with no truthiness requirement on that value. -/
def claimC5Spec (rows : List (List CellValue)) (kf : KeyFigure) : Prop :=
  ∃ i row j s v, rows[i]? = some row ∧
    row[j]? = some (CellValue.str s) ∧ cellKeywordMatch s = true ∧
    row[j + 1]? = some v ∧ isNumberCell v = true ∧
    kf = ⟨s, v, rowLoc (i + 1)⟩

/-- C5 as stated, at one worksheet. -/
def claimC5At (rows : List (List CellValue)) : Prop :=
  ∀ kf, kf ∈ extract_excel_key_figures rows ↔ claimC5Spec rows kf

/-- A keyword match forces the cell string to be non-empty (all keywords
are non-empty). -/
theorem cellKeywordMatch_ne_empty {s : String}
    (h : cellKeywordMatch s = true) : s ≠ "" := by
  intro hs
  subst hs
  exact absurd h (by decide)

/-- `isKeywordStr` unfolded to its two conjuncts. -/
theorem isKeywordStr_iff {s : String} :
    isKeywordStr s = true ↔ s ≠ "" ∧ cellKeywordMatch s = true := by
  simp [isKeywordStr]

/-- Splitting the key-figure condition of a row at its head cell. -/
theorem keyfig_cond_cons (c : CellValue) (rest : List CellValue)
    (kf : KeyFigure) (r : Nat) :
    (∃ j s v, (c :: rest)[j]? = some (CellValue.str s) ∧
      cellKeywordMatch s = true ∧ (c :: rest)[j + 1]? = some v ∧
      isTruthyNumber v = true ∧ kf = ⟨s, v, rowLoc r⟩) ↔
    ((∃ s v, c = CellValue.str s ∧ cellKeywordMatch s = true ∧
        rest[0]? = some v ∧ isTruthyNumber v = true ∧
        kf = ⟨s, v, rowLoc r⟩) ∨
      (∃ j s v, rest[j]? = some (CellValue.str s) ∧
        cellKeywordMatch s = true ∧ rest[j + 1]? = some v ∧
        isTruthyNumber v = true ∧ kf = ⟨s, v, rowLoc r⟩)) := by
  constructor
  · rintro ⟨j, s, v, h1, h2, h3, h4, h5⟩
    cases j with
    | zero =>
      exact Or.inl ⟨s, v, by simpa using h1, h2, by simpa using h3,
        h4, h5⟩
    | succ j =>
      exact Or.inr ⟨j, s, v, by simpa using h1, h2, by simpa using h3,
        h4, h5⟩
  · rintro (⟨s, v, h1, h2, h3, h4, h5⟩ | ⟨j, s, v, h1, h2, h3, h4, h5⟩)
    · exact ⟨0, s, v, by simp [h1], h2, by simpa using h3, h4, h5⟩
    · exact ⟨j + 1, s, v, by simpa using h1, h2, by simpa using h3,
        h4, h5⟩

/-- Membership characterization of the inner column loop. -/
theorem mem_rowKeyFigures (r : Nat) (row : List CellValue) (kf : KeyFigure) :
    kf ∈ rowKeyFigures r row ↔ ∃ j s v,
      row[j]? = some (CellValue.str s) ∧ cellKeywordMatch s = true ∧
      row[j + 1]? = some v ∧ isTruthyNumber v = true ∧
      kf = ⟨s, v, rowLoc r⟩ := by
  induction row with
  | nil => simp [rowKeyFigures]
  | cons c rest ih =>
    rw [keyfig_cond_cons]
    cases c with
    | str s =>
      by_cases hk : isKeywordStr s = true
      · have hkm : cellKeywordMatch s = true := (isKeywordStr_iff.mp hk).2
        cases rest with
        | nil => simp [rowKeyFigures, hk]
        | cons v0 rest' =>
          by_cases ht : isTruthyNumber v0 = true
          · simp only [rowKeyFigures, hk, ht, List.head?_cons, if_true,
              List.mem_append, List.mem_singleton, ih,
              List.getElem?_cons_zero]
            constructor
            · rintro (h | h)
              · exact Or.inl ⟨s, v0, rfl, hkm, rfl, ht, h⟩
              · exact Or.inr h
            · rintro (⟨s', v', h1, h2, h3, h4, h5⟩ | h)
              · cases h1
                cases h3
                exact Or.inl h5
              · exact Or.inr h
          · simp only [rowKeyFigures, hk, ht, List.head?_cons, if_true,
              Bool.false_eq_true, if_false, List.nil_append, ih,
              List.getElem?_cons_zero]
            constructor
            · intro h
              exact Or.inr h
            · rintro (⟨s', v', h1, h2, h3, h4, h5⟩ | h)
              · cases h1
                cases h3
                exact absurd h4 ht
              · exact h
      · simp only [rowKeyFigures, hk, Bool.false_eq_true, if_false,
          List.nil_append, ih]
        constructor
        · intro h
          exact Or.inr h
        · rintro (⟨s', v', h1, h2, h3, h4, h5⟩ | h)
          · cases h1
            exact absurd (isKeywordStr_iff.mpr
              ⟨cellKeywordMatch_ne_empty h2, h2⟩) hk
          · exact h
    | int n =>
      simp only [rowKeyFigures, ih]
      constructor
      · intro h
        exact Or.inr h
      · rintro (⟨s', v', h1, _⟩ | h)
        · exact absurd h1 (by simp)
        · exact h
    | float q =>
      simp only [rowKeyFigures, ih]
      constructor
      · intro h
        exact Or.inr h
      · rintro (⟨s', v', h1, _⟩ | h)
        · exact absurd h1 (by simp)
        · exact h
    | empty =>
      simp only [rowKeyFigures, ih]
      constructor
      · intro h
        exact Or.inr h
      · rintro (⟨s', v', h1, _⟩ | h)
        · exact absurd h1 (by simp)
        · exact h

/-- Membership characterization of the outer row loop. -/
theorem mem_sheetKeyFiguresFrom (n : Nat) (rows : List (List CellValue))
    (kf : KeyFigure) :
    kf ∈ sheetKeyFiguresFrom n rows ↔ ∃ i row, rows[i]? = some row ∧
      kf ∈ rowKeyFigures (n + i) row := by
  induction rows generalizing n with
  | nil => simp [sheetKeyFiguresFrom]
  | cons row rows ih =>
    simp only [sheetKeyFiguresFrom, List.mem_append, ih]
    constructor
    · rintro (h | ⟨i, row', hi, hmem⟩)
      · exact ⟨0, row, by simp, by simpa using h⟩
      · exact ⟨i + 1, row', by simpa using hi, by
          have harith : n + 1 + i = n + (i + 1) := by omega
          rwa [harith] at hmem⟩
    · rintro ⟨i, row', hi, hmem⟩
      cases i with
      | zero =>
        simp only [List.getElem?_cons_zero, Option.some_inj] at hi
        cases hi
        exact Or.inl (by simpa using hmem)
      | succ i =>
        refine Or.inr ⟨i, row', by simpa using hi, by
          have harith : n + (i + 1) = n + 1 + i := by omega
          rwa [harith] at hmem⟩

/-- C5 counterexample: take the one-row worksheet
`[["total", 0]]`.  `"total"` is a keyword and `0` is an `int`, so the
claim as stated requires a key figure `{label: "total", value: 0}`; but
the code's guard `if next_val and isinstance(next_val, (int, float))` is
falsy for `0`, so no key figure is recorded. -/
theorem C5_counterexample :
    ¬ claimC5At [[CellValue.str "total", CellValue.int 0]] := by
  intro h
  have hmem := (h ⟨"total", CellValue.int 0, rowLoc 1⟩).mpr
    ⟨0, [CellValue.str "total", CellValue.int 0], 0, "total",
      CellValue.int 0, by simp, by simp, by decide, by simp, rfl, rfl⟩
  exact absurd hmem (by decide)

/-- C5 (amended): for every worksheet, `extract_excel_data` records a key
figure `{label, value}` exactly when a cell holds a string that contains
one of the fixed financial keywords case-insensitively and the
immediately following cell in the same row holds a *truthy* numeric value
(a non-zero int or float); the recorded value is that following cell, and
a keyword cell in the last column of its row produces no key figure
(there is no following cell). -/
theorem C5_key_figures (rows : List (List CellValue)) (kf : KeyFigure) :
    kf ∈ extract_excel_key_figures rows ↔
      ∃ i row j s v, rows[i]? = some row ∧
        row[j]? = some (CellValue.str s) ∧ cellKeywordMatch s = true ∧
        row[j + 1]? = some v ∧ isTruthyNumber v = true ∧
        kf = ⟨s, v, rowLoc (i + 1)⟩ := by
  rw [extract_excel_key_figures, mem_sheetKeyFiguresFrom]
  constructor
  · rintro ⟨i, row, hi, hmem⟩
    rw [mem_rowKeyFigures] at hmem
    obtain ⟨j, s, v, h1, h2, h3, h4, h5⟩ := hmem
    exact ⟨i, row, j, s, v, hi, h1, h2, h3, h4,
      by rw [h5, Nat.add_comm 1 i]⟩
  · rintro ⟨i, row, j, s, v, hi, h1, h2, h3, h4, h5⟩
    refine ⟨i, row, hi, ?_⟩
    rw [mem_rowKeyFigures]
    exact ⟨j, s, v, h1, h2, h3, h4, by rw [h5, Nat.add_comm i 1]⟩

/-! ## C2, C10 — `classify_files_with_llm`
(`classify_files_llm.py`, lines 59-176) -/

/-- A `pathlib.Path`: the classifier keys on `f.name` but stores and
returns the full path, so both are modelled. -/
structure FPath where
  name : String
  full : String
deriving DecidableEq, Repr

/-- One entry of the parsed CLI response's `"classifications"` list. -/
structure ClassEntry where
  filename : String
  sections : List Int
deriving DecidableEq, Repr

/-- `section_mapping = {i: [] for i in range(1, 12)}`, as an association
list in key order. -/
def initSectionMapping : List (Nat × List FPath) :=
  (List.range' 1 11).map fun n => (n, [])

/-- `section_mapping[section_num].append(file_path)`: append to the value
of an existing key (no key is ever added). -/
def mapAppend (m : List (Nat × List FPath)) (k : Nat) (p : FPath) :
    List (Nat × List FPath) :=
  m.map fun kv => if kv.1 = k then (kv.1, kv.2 ++ [p]) else kv

/-- `filename_to_path = {f.name: f for f in files}` looked up at `name`:
with duplicate names the later file wins, hence `getLast?`. -/
def filename_to_path (files : List FPath) (name : String) : Option FPath :=
  (files.filter (fun f => f.name = name)).getLast?

/-- `for section_num in sections: if 1 <= section_num <= 11:
section_mapping[section_num].append(file_path)`. -/
def applySections (p : FPath) (m : List (Nat × List FPath)) :
    List Int → List (Nat × List FPath)
  | [] => m
  | n :: rest =>
    applySections p (if 1 ≤ n ∧ n ≤ 11 then mapAppend m n.toNat p else m)
      rest

/-- One iteration of `for classification in result["classifications"]`:
an unmatched filename is skipped entirely. -/
def applyEntry (files : List FPath) (m : List (Nat × List FPath))
    (e : ClassEntry) : List (Nat × List FPath) :=
  match filename_to_path files e.filename with
  | some p => applySections p m e.sections
  | none => m

/-- `classify_files_with_llm(files, ...)` given the parsed JSON response
`resp` of the CLI.  Returns the section mapping, the detailed results
(the response itself; `{"classifications": []}` for the empty-file
short-circuit) and whether the external CLI was invoked. -/
def classify_files_with_llm (files : List FPath) (resp : List ClassEntry) :
    List (Nat × List FPath) × List ClassEntry × Bool :=
  if files.isEmpty then (initSectionMapping, [], false)
  else (resp.foldl (applyEntry files) initSectionMapping, resp, true)

/-- The response with exactly the ignored parts removed: entries whose
filename matches no input file, and section numbers outside `1..11`. -/
def sanitizeResp (files : List FPath) (resp : List ClassEntry) :
    List ClassEntry :=
  (resp.filter (fun e => (filename_to_path files e.filename).isSome)).map
    fun e => ⟨e.filename, e.sections.filter (fun n => 1 ≤ n ∧ n ≤ 11)⟩

theorem keys_mapAppend (m : List (Nat × List FPath)) (k : Nat) (p : FPath) :
    (mapAppend m k p).map Prod.fst = m.map Prod.fst := by
  induction m with
  | nil => rfl
  | cons kv rest ih =>
    by_cases h : kv.1 = k <;> simp [mapAppend, h] <;>
      simpa [mapAppend] using ih

theorem keys_applySections (p : FPath) (m : List (Nat × List FPath))
    (sections : List Int) :
    (applySections p m sections).map Prod.fst = m.map Prod.fst := by
  induction sections generalizing m with
  | nil => rfl
  | cons n rest ih =>
    rw [applySections]
    by_cases h : 1 ≤ n ∧ n ≤ 11
    · rw [if_pos h, ih, keys_mapAppend]
    · rw [if_neg h, ih]

theorem keys_applyEntry (files : List FPath) (m : List (Nat × List FPath))
    (e : ClassEntry) :
    (applyEntry files m e).map Prod.fst = m.map Prod.fst := by
  rw [applyEntry]
  cases filename_to_path files e.filename with
  | some p => exact keys_applySections p m e.sections
  | none => rfl

theorem keys_foldl (files : List FPath) (resp : List ClassEntry)
    (m : List (Nat × List FPath)) :
    (resp.foldl (applyEntry files) m).map Prod.fst = m.map Prod.fst := by
  induction resp generalizing m with
  | nil => rfl
  | cons e rest ih => rw [List.foldl_cons, ih, keys_applyEntry]

theorem filename_to_path_mem {files : List FPath} {name : String}
    {p : FPath} (h : filename_to_path files name = some p) : p ∈ files := by
  have hmem : p ∈ files.filter (fun f => f.name = name) := by
    obtain ⟨hne, heq⟩ := List.mem_getLast?_eq_getLast (Option.mem_def.mpr h)
    rw [heq]
    exact List.getLast_mem hne
  exact (List.mem_filter.mp hmem).1

/-- The "all stored paths come from `files`" invariant, preserved by every
update the classifier performs. -/
def pathsFrom (files : List FPath) (m : List (Nat × List FPath)) : Prop :=
  ∀ kv ∈ m, ∀ p ∈ kv.2, p ∈ files

theorem pathsFrom_mapAppend {files : List FPath}
    {m : List (Nat × List FPath)} {k : Nat} {p : FPath}
    (hm : pathsFrom files m) (hp : p ∈ files) :
    pathsFrom files (mapAppend m k p) := by
  intro kv hkv q hq
  rw [mapAppend, List.mem_map] at hkv
  obtain ⟨kv', hkv', heq⟩ := hkv
  by_cases h : kv'.1 = k
  · rw [if_pos h] at heq
    subst heq
    simp only [List.mem_append, List.mem_singleton] at hq
    rcases hq with hq | hq
    · exact hm kv' hkv' q hq
    · subst hq; exact hp
  · rw [if_neg h] at heq
    subst heq
    exact hm kv' hkv' q hq

theorem pathsFrom_applySections {files : List FPath}
    {m : List (Nat × List FPath)} {p : FPath} (sections : List Int)
    (hm : pathsFrom files m) (hp : p ∈ files) :
    pathsFrom files (applySections p m sections) := by
  induction sections generalizing m with
  | nil => exact hm
  | cons n rest ih =>
    rw [applySections]
    by_cases h : 1 ≤ n ∧ n ≤ 11
    · rw [if_pos h]
      exact ih (pathsFrom_mapAppend hm hp)
    · rw [if_neg h]
      exact ih hm

theorem pathsFrom_applyEntry {files : List FPath}
    {m : List (Nat × List FPath)} (e : ClassEntry)
    (hm : pathsFrom files m) :
    pathsFrom files (applyEntry files m e) := by
  rw [applyEntry]
  cases hf : filename_to_path files e.filename with
  | some p => exact pathsFrom_applySections e.sections hm (filename_to_path_mem hf)
  | none => exact hm

theorem pathsFrom_foldl {files : List FPath} (resp : List ClassEntry)
    {m : List (Nat × List FPath)} (hm : pathsFrom files m) :
    pathsFrom files (resp.foldl (applyEntry files) m) := by
  induction resp generalizing m with
  | nil => exact hm
  | cons e rest ih => exact ih (pathsFrom_applyEntry e hm)

theorem applySections_filter (p : FPath) (m : List (Nat × List FPath))
    (sections : List Int) :
    applySections p m
        (sections.filter (fun n => 1 ≤ n ∧ n ≤ 11)) =
      applySections p m sections := by
  induction sections generalizing m with
  | nil => rfl
  | cons n rest ih =>
    by_cases h : 1 ≤ n ∧ n ≤ 11
    · rw [show (n :: rest).filter (fun n => 1 ≤ n ∧ n ≤ 11) =
          n :: rest.filter (fun n => 1 ≤ n ∧ n ≤ 11) from by
            simp [List.filter_cons, h]]
      rw [applySections, applySections, if_pos h, ih]
    · rw [show (n :: rest).filter (fun n => 1 ≤ n ∧ n ≤ 11) =
          rest.filter (fun n => 1 ≤ n ∧ n ≤ 11) from by
            simp [List.filter_cons, h]]
      rw [applySections, if_neg h, ih]

theorem foldl_sanitize (files : List FPath) (resp : List ClassEntry)
    (m : List (Nat × List FPath)) :
    (sanitizeResp files resp).foldl (applyEntry files) m =
      resp.foldl (applyEntry files) m := by
  induction resp generalizing m with
  | nil => rfl
  | cons e rest ih =>
    by_cases h : (filename_to_path files e.filename).isSome = true
    · obtain ⟨p, hp⟩ := Option.isSome_iff_exists.mp h
      rw [show sanitizeResp files (e :: rest) =
          (⟨e.filename, e.sections.filter (fun n => 1 ≤ n ∧ n ≤ 11)⟩ :
            ClassEntry) :: sanitizeResp files rest from by
            simp [sanitizeResp, List.filter_cons, h]]
      rw [List.foldl_cons, List.foldl_cons, ih]
      congr 1
      rw [applyEntry, applyEntry]
      simp only [hp]
      exact applySections_filter p m e.sections
    · rw [show sanitizeResp files (e :: rest) = sanitizeResp files rest
          from by simp [sanitizeResp, List.filter_cons, h]]
      rw [List.foldl_cons, ih]
      congr 1
      rw [applyEntry]
      rw [Option.not_isSome_iff_eq_none] at h
      rw [h]

/-- C2: for every input file list and parsed CLI response, the mapping
returned by `classify_files_with_llm` has exactly the keys 1..11 (in
order); every path stored under any key is one of the input files; and
removing from the response all section numbers outside 1..11 and all
entries whose filename matches no input file leaves the result unchanged
(such parts are discarded without error). -/
theorem C2_classify_invariants (files : List FPath)
    (resp : List ClassEntry) :
    ((classify_files_with_llm files resp).1.map Prod.fst =
        List.range' 1 11) ∧
    (∀ kv ∈ (classify_files_with_llm files resp).1, ∀ p ∈ kv.2,
        p ∈ files) ∧
    ((classify_files_with_llm files (sanitizeResp files resp)).1 =
        (classify_files_with_llm files resp).1) := by
  have hinitkeys : initSectionMapping.map Prod.fst = List.range' 1 11 := by
    have hcomp : (Prod.fst ∘ fun n : Nat => (n, ([] : List FPath))) = id :=
      rfl
    rw [initSectionMapping, List.map_map, hcomp, List.map_id]
  have hinit : pathsFrom files initSectionMapping := by
    intro kv hkv p hp
    rw [initSectionMapping, List.mem_map] at hkv
    obtain ⟨n, _, heq⟩ := hkv
    subst heq
    exact absurd hp (List.not_mem_nil p)
  refine ⟨?_, ?_, ?_⟩
  · rw [classify_files_with_llm]
    by_cases h : files.isEmpty = true
    · rw [if_pos h]
      exact hinitkeys
    · rw [if_neg h]
      exact (keys_foldl files resp initSectionMapping).trans hinitkeys
  · rw [classify_files_with_llm]
    by_cases h : files.isEmpty = true
    · rw [if_pos h]
      exact hinit
    · rw [if_neg h]
      exact pathsFrom_foldl resp hinit
  · rw [classify_files_with_llm, classify_files_with_llm]
    by_cases h : files.isEmpty = true
    · rw [if_pos h, if_pos h]
    · rw [if_neg h, if_neg h]
      exact foldl_sanitize files resp initSectionMapping

/-- Witness for `C2_classify_invariants` at a concrete input: one file
`a.pdf` and a response classifying it under section 2 plus the ignored
section numbers 0 and 15; the path stored under key 2 is the input file,
and the key list is exactly `[1, ..., 11]`. -/
theorem C2_witness :
    (FPath.mk "a.pdf" "/x/a.pdf") ∈ [FPath.mk "a.pdf" "/x/a.pdf"] ∧
    (classify_files_with_llm [FPath.mk "a.pdf" "/x/a.pdf"]
        [⟨"a.pdf", [2, 0, 15]⟩]).1.map Prod.fst = List.range' 1 11 := by
  constructor
  · exact (C2_classify_invariants [FPath.mk "a.pdf" "/x/a.pdf"]
      [⟨"a.pdf", [2, 0, 15]⟩]).2.1 (2, [FPath.mk "a.pdf" "/x/a.pdf"])
      (by decide) (FPath.mk "a.pdf" "/x/a.pdf") (by decide)
  · exact (C2_classify_invariants [FPath.mk "a.pdf" "/x/a.pdf"]
      [⟨"a.pdf", [2, 0, 15]⟩]).1

/-- C10: called with an empty file list, `classify_files_with_llm`
returns the mapping with keys 1..11 each bound to the empty list, paired
with empty detailed classifications, and does not invoke the external
CLI (third component `false`), whatever the CLI response oracle would
have been. -/
theorem C10_empty_file_list (resp : List ClassEntry) :
    classify_files_with_llm [] resp =
      ((List.range' 1 11).map fun n => (n, ([] : List FPath)), [], false) :=
  rfl

/-! ## C1, C4 — the section pipeline and `compile_final_report`
(`generate_mentoring_report_auto.py`, lines 210-330 and 568-607) -/

/-- A video recommendation entry. -/
structure Video where
  title : String
  channel : String
  url : String
  duration : String
  topic : String
  relevance : String
deriving DecidableEq, Repr

/-- A legal-link entry. -/
structure LegalLink where
  title : String
  url : String
  description : String
deriving DecidableEq, Repr

/-- The `company_info` dict: fields are `Option`s because the metadata
returned by Section 1 may lack any of the keys. -/
structure CompanyInfo where
  company_name : Option String
  afm : Option String
  kad : Option String
  website : Option String
deriving DecidableEq, Repr

/-- A generated section dict, restricted to the keys the pipeline itself
inspects (`number`, `metadata`, `video_recommendations`) plus a flag
recording whether the dict holds any key beyond those three: the other
content stays opaque except that the truthiness tests `if section:` /
`if section_1:` of `main` distinguish an empty dict from a non-empty
one. -/
structure SectionJson where
  number : Option Int
  metadata : Option CompanyInfo
  video_recommendations : Option (List Video)
  hasOtherKeys : Bool
deriving DecidableEq, Repr

/-- Python dict truthiness for a section dict: truthy exactly when the
dict is non-empty, i.e. at least one of the inspected keys is present or
some other key is. -/
def sectionTruthy (s : SectionJson) : Bool :=
  s.number.isSome || s.metadata.isSome ||
    s.video_recommendations.isSome || s.hasOtherKeys

/-- The five-entry default video list of `compile_final_report`. -/
def defaultVideoRecommendations : List Video :=
  [⟨"AI for Small Business: Complete Guide", "AI Business School",
      "https://www.youtube.com/watch?v=example1", "15:30",
      "AI Tools for SMEs",
      "Πρακτικά εργαλεία AI για μικρές επιχειρήσεις"⟩,
   ⟨"Digital Marketing για Επαγγελματίες", "Marketing GR",
      "https://www.youtube.com/watch?v=example2", "22:15",
      "Digital Marketing",
      "Στρατηγικές online marketing για ελληνικές επιχειρήσεις"⟩,
   ⟨"Οικονομική Διαχείριση ΜμΕ", "Small Business Finance GR",
      "https://www.youtube.com/watch?v=example3", "18:45",
      "Financial Management",
      "Οικονομική διαχείριση και προγραμματισμός"⟩,
   ⟨"ΕΣΠΑ 2021-2027 - Οδηγός Χρηματοδότησης", "ΕΣΠΑ Info",
      "https://www.youtube.com/watch?v=example4", "28:00",
      "ΕΣΠΑ Funding", "Αξιοποίηση προγραμμάτων ΕΣΠΑ"⟩,
   ⟨"Ψηφιακός Μετασχηματισμός Επιχειρήσεων",
      "Digital Transformation GR",
      "https://www.youtube.com/watch?v=example5", "20:00",
      "Digital Transformation", "Στρατηγική ψηφιακής αναβάθμισης"⟩]

/-- The four-entry static `legal_links` list of `compile_final_report`. -/
def staticLegalLinks : List LegalLink :=
  [⟨"ΑΑΔΕ - Ανεξάρτητη Αρχή Δημοσίων Εσόδων", "https://1521.aade.gr/",
      "Πύλη φορολογικών υποθέσεων και δηλώσεων (Ε1, Ε3, ΦΠΑ, myDATA)"⟩,
   ⟨"ΕΦΚΑ - Ηλεκτρονικές Υπηρεσίες", "https://www.efka.gov.gr/",
      "Ενιαίος Φορέας Κοινωνικής Ασφάλισης - Ασφαλιστικές εισφορές"⟩,
   ⟨"ΓΕΜΗ - Γενικό Εμπορικό Μητρώο", "https://www.businessportal.gr/",
      "Υπηρεσίες Γ.Ε.ΜΗ. και επιχειρηματικότητας"⟩,
   ⟨"ΕΣΠΑ 2021-2027", "https://www.espa.gr/",
      "Προγράμματα χρηματοδότησης για επιχειρήσεις"⟩]

/-- The `for section in sections` loop of `compile_final_report`: the
first non-`None` section whose `number` is 8 contributes its
`video_recommendations` (default `[]`), with `break`; no match leaves the
initial `[]`. -/
def videoRecsLoop : List (Option SectionJson) → List Video
  | [] => []
  | none :: rest => videoRecsLoop rest
  | some s :: rest =>
    if s.number = some 8 then s.video_recommendations.getD []
    else videoRecsLoop rest

/-- The final report dict assembled by `compile_final_report`, restricted
to its data fields.  The `executive_summary` field (a fixed HTML template
string interpolating `company_name` and the AFM) is not modelled: no
claim concerns it. -/
structure Report where
  company_name : String
  afm : String
  kad : String
  website : String
  report_title : String
  sections : List SectionJson
  video_recommendations : List Video
  legal_links : List LegalLink
deriving DecidableEq, Repr

/-- `compile_final_report(sections, company_info, output_path)` (the
write of the JSON file simply persists the returned dict). -/
def compile_final_report (sections : List (Option SectionJson))
    (company_info : CompanyInfo) : Report :=
  let video_recommendations := videoRecsLoop sections
  let video_recommendations :=
    if video_recommendations = [] then defaultVideoRecommendations
    else video_recommendations
  { company_name := company_info.company_name.getD ""
    afm := company_info.afm.getD ""
    kad := company_info.kad.getD ""
    website := company_info.website.getD ""
    report_title :=
      "Comprehensive Mentoring & Business Development Report - " ++
        company_info.company_name.getD "Greek SME"
    sections := sections.filterMap id
    video_recommendations := video_recommendations
    legal_links := staticLegalLinks }

/-- `if 'metadata' in section_1: company_info = section_1['metadata']`. -/
def updateCompanyInfo (info : CompanyInfo) (s : SectionJson) :
    CompanyInfo :=
  match s.metadata with
  | some m => m
  | none => info

/-- The `for section_num in range(2, 12)` loop of `main`: generate each
section and append it when the result passes `if section:` — Python
truthiness, false both for `None` and for an empty dict — skipping it
otherwise. -/
def sectionsLoop (gen : Nat → CompanyInfo → Option SectionJson)
    (info : CompanyInfo) (acc : List SectionJson) :
    List Nat → List SectionJson
  | [] => acc
  | n :: rest =>
    match gen n info with
    | some s =>
      if sectionTruthy s then sectionsLoop gen info (acc ++ [s]) rest
      else sectionsLoop gen info acc rest
    | none => sectionsLoop gen info acc rest

/-- Phase 4 of `main`: Section 1 is generated first; under
`if section_1:` (truthiness again) it is appended and its metadata, when
present, replaces `company_info`; then sections 2..11 are generated with
the resulting info.  Returns the accumulated `sections` list and the
final `company_info`. -/
def generate_all_sections (gen : Nat → CompanyInfo → Option SectionJson)
    (info0 : CompanyInfo) : List SectionJson × CompanyInfo :=
  match gen 1 info0 with
  | some s1 =>
    if sectionTruthy s1 then
      (sectionsLoop gen (updateCompanyInfo info0 s1) [s1]
          (List.range' 2 10),
        updateCompanyInfo info0 s1)
    else (sectionsLoop gen info0 [] (List.range' 2 10), info0)
  | none => (sectionsLoop gen info0 [] (List.range' 2 10), info0)

/-- The `company_info` in force for sections 2..11. -/
def infoAfterSection1 (gen : Nat → CompanyInfo → Option SectionJson)
    (info0 : CompanyInfo) : CompanyInfo :=
  match gen 1 info0 with
  | some s1 =>
    if sectionTruthy s1 then updateCompanyInfo info0 s1 else info0
  | none => info0

/-- What `if section:` lets through: a returned dict that is truthy
(non-empty); `None` and the empty dict are dropped. -/
def keepTruthy : Option SectionJson → Option SectionJson
  | some s => if sectionTruthy s then some s else none
  | none => none

theorem sectionsLoop_eq (gen : Nat → CompanyInfo → Option SectionJson)
    (info : CompanyInfo) (acc : List SectionJson) (ns : List Nat) :
    sectionsLoop gen info acc ns =
      acc ++ ns.filterMap (fun n => keepTruthy (gen n info)) := by
  induction ns generalizing acc with
  | nil => simp [sectionsLoop]
  | cons n rest ih =>
    cases h : gen n info with
    | some s =>
      by_cases ht : sectionTruthy s = true
      · simp [sectionsLoop, h, ht, ih, keepTruthy]
      · simp [sectionsLoop, h, ht, ih, keepTruthy]
    | none => simp [sectionsLoop, h, ih, keepTruthy]

/-- A generation oracle returning the empty dict `{}` for section 1 and
`None` for every other section. -/
def genEmptyDict : Nat → CompanyInfo → Option SectionJson :=
  fun n _ => if n = 1 then some ⟨none, none, none, false⟩ else none

/-- C1 counterexample: `generate_section_via_agent` can return an empty
dict (e.g. `section_1_generated.json` holding `{}` parses and is
returned), which is "a dict", so the claim requires it in the compiled
`sections` list; but `if section:` / `if section_1:` is falsy for `{}`
and `main` skips it.  With the oracle returning `{}` for section 1 and
`None` elsewhere, generation returned a dict for section 1 yet the
compiled `sections` list is empty. -/
theorem C1_counterexample :
    genEmptyDict 1 ⟨none, none, none, none⟩ =
        some ⟨none, none, none, false⟩ ∧
      (compile_final_report
          ((generate_all_sections genEmptyDict
            ⟨none, none, none, none⟩).1.map some)
          (generate_all_sections genEmptyDict
            ⟨none, none, none, none⟩).2).sections = [] := by
  exact ⟨rfl, rfl⟩

/-- C1 (amended): the pipeline has skip-on-failure semantics.  For every
generation oracle `gen`, the compiled report's `sections` list is
exactly the list of sections for which generation returned a *truthy
(non-empty)* dict, taken over section numbers 1 through 11 in ascending
order; a `None` result — or an empty dict, which the truthiness tests
`if section_1:` / `if section:` also reject — is omitted and generation
continues with the remaining sections. -/
theorem C1_pipeline_skip (gen : Nat → CompanyInfo → Option SectionJson)
    (info0 : CompanyInfo) :
    (compile_final_report ((generate_all_sections gen info0).1.map some)
        (generate_all_sections gen info0).2).sections =
      (List.range' 1 11).filterMap
        (fun n => keepTruthy (gen n
          (if n = 1 then info0 else infoAfterSection1 gen info0))) := by
  have hsections : ∀ sections info,
      (compile_final_report sections info).sections =
        sections.filterMap id := fun _ _ => rfl
  rw [hsections]
  have hclean : ∀ l : List SectionJson, (l.map some).filterMap id = l := by
    intro l
    simp
  rw [hclean]
  have hcongr : (List.range' 2 10).filterMap
      (fun n => keepTruthy (gen n
        (if n = 1 then info0 else infoAfterSection1 gen info0))) =
      (List.range' 2 10).filterMap
        (fun n => keepTruthy (gen n (infoAfterSection1 gen info0))) := by
    refine List.filterMap_congr ?_
    intro n hn
    have h2 : 2 ≤ n := (List.mem_range'_1.mp hn).1
    have hne : n ≠ 1 := by omega
    rw [if_neg hne]
  rw [List.range'_succ, List.filterMap_cons]
  have h11 : (if (1 : Nat) = 1 then info0 else infoAfterSection1 gen info0)
      = info0 := if_pos rfl
  have h2 : (1 : Nat) + 1 = 2 := rfl
  rw [h11, h2, hcongr]
  cases h1 : gen 1 info0 with
  | some s1 =>
    by_cases ht : sectionTruthy s1 = true
    · have hinfo : infoAfterSection1 gen info0 =
          updateCompanyInfo info0 s1 := by
        simp only [infoAfterSection1, h1, ht, if_true]
      have hgen : (generate_all_sections gen info0).1 =
          sectionsLoop gen (updateCompanyInfo info0 s1) [s1]
            (List.range' 2 10) := by
        simp only [generate_all_sections, h1, ht, if_true]
      have hk : keepTruthy (some s1) = some s1 := by
        simp [keepTruthy, ht]
      rw [hgen, sectionsLoop_eq, hinfo, hk]
      simp
    · have hinfo : infoAfterSection1 gen info0 = info0 := by
        simp only [infoAfterSection1, h1, ht, Bool.false_eq_true, if_false]
      have hgen : (generate_all_sections gen info0).1 =
          sectionsLoop gen info0 [] (List.range' 2 10) := by
        simp only [generate_all_sections, h1, ht, Bool.false_eq_true,
          if_false]
      have hk : keepTruthy (some s1) = none := by
        simp [keepTruthy, ht]
      rw [hgen, sectionsLoop_eq, hinfo, hk]
      simp
  | none =>
    have hinfo : infoAfterSection1 gen info0 = info0 := by
      rw [infoAfterSection1, h1]
    have hgen : (generate_all_sections gen info0).1 =
        sectionsLoop gen info0 [] (List.range' 2 10) := by
      rw [generate_all_sections, h1]
    rw [hgen, sectionsLoop_eq, hinfo]
    simp [keepTruthy]

theorem videoRecsLoop_eq_find (sections : List (Option SectionJson)) :
    videoRecsLoop sections =
      match (sections.filterMap id).find? (fun s => s.number == some 8) with
      | some s => s.video_recommendations.getD []
      | none => [] := by
  induction sections with
  | nil => rfl
  | cons c rest ih =>
    cases c with
    | none =>
      have hx : (none :: rest).filterMap
          (id : Option SectionJson → Option SectionJson) =
            rest.filterMap id := by simp
      rw [videoRecsLoop, ih, hx]
    | some s =>
      have hx : (some s :: rest).filterMap
          (id : Option SectionJson → Option SectionJson) =
            s :: rest.filterMap id := by simp
      rw [videoRecsLoop, hx]
      by_cases h8 : s.number = some 8
      · rw [if_pos h8,
          @List.find?_cons_of_pos _ (fun s => s.number == some 8) s
            (rest.filterMap id) (beq_iff_eq.mpr h8)]
      · rw [if_neg h8, ih,
          @List.find?_cons_of_neg _ (fun s => s.number == some 8) s
            (rest.filterMap id) (by simp [h8])]

/-- C4: for every list of generated sections, the compiled report's
`video_recommendations` equal the `video_recommendations` list of the
first section whose `number` field is 8 when that list is non-empty and
the fixed five-entry default list otherwise; and the report's
`legal_links` always equal the fixed four-entry static list. -/
theorem C4_videos_and_legal_links (sections : List (Option SectionJson))
    (info : CompanyInfo) :
    (compile_final_report sections info).legal_links = staticLegalLinks ∧
    staticLegalLinks.length = 4 ∧
    defaultVideoRecommendations.length = 5 ∧
    (compile_final_report sections info).video_recommendations =
      (match (sections.filterMap id).find? (fun s => s.number == some 8) with
        | some s =>
          if s.video_recommendations.getD [] = []
            then defaultVideoRecommendations
            else s.video_recommendations.getD []
        | none => defaultVideoRecommendations) := by
  refine ⟨rfl, rfl, rfl, ?_⟩
  have hv : (compile_final_report sections info).video_recommendations =
      (if videoRecsLoop sections = [] then defaultVideoRecommendations
        else videoRecsLoop sections) := rfl
  rw [hv, videoRecsLoop_eq_find]
  cases hf : (sections.filterMap id).find? (fun s => s.number == some 8) with
  | none => rfl
  | some s =>
    have hmatch : (match (some s : Option SectionJson) with
        | some t => t.video_recommendations.getD []
        | none => ([] : List Video)) = s.video_recommendations.getD [] := rfl
    have hmatch2 : (match (some s : Option SectionJson) with
        | some t =>
          if t.video_recommendations.getD [] = []
            then defaultVideoRecommendations
            else t.video_recommendations.getD []
        | none => defaultVideoRecommendations) =
        if s.video_recommendations.getD [] = []
          then defaultVideoRecommendations
          else s.video_recommendations.getD [] := rfl
    rw [hmatch, hmatch2]

/-! ## C3 — `generate_section_via_agent`
(`generate_mentoring_report_auto.py`, lines 111-207)

`json.load`/`json.loads` is an external library call, modelled by a parse
oracle `parse : String → Option SectionJson`; the two regex extractions
over stdout are modelled concretely below. -/

/-- The literal `"```json"` of the fenced-block regex. -/
def fenceOpen : List Char := "```json".toList

/-- The closing literal `"```"`. -/
def fence : List Char := "```".toList

/-- `re.search(r'```json\s*(.*?)\s*```', output_text, re.DOTALL)`:
the leftmost match starts at the first `"```json"`, greedily skips
whitespace, and the lazy group ends at the first following `"```"`, with
trailing whitespace stripped from the capture. -/
def extractFenced (stdout : String) : Option String :=
  match findSub fenceOpen stdout.toList with
  | none => none
  | some i =>
    let rest := (stdout.toList.drop (i + 7)).dropWhile pyIsSpace
    match findSub fence rest with
    | none => none
    | some j => some ⟨((rest.take j).reverse.dropWhile pyIsSpace).reverse⟩

/-- The literal `"number"` (with its quotes) of the raw-JSON regex. -/
def quoteNumber : List Char := "\"number\"".toList

/-- Index of the last occurrence of character `c` in `cs`. -/
def lastIdxOf (c : Char) (cs : List Char) : Option Nat :=
  match findSub [c] cs.reverse with
  | none => none
  | some k => some (cs.length - 1 - k)

/-- `re.search(r'\{.*"number".*\}', output_text, re.DOTALL)`: a match
starts at the first brace, requires an occurrence of `"number"` after it
(the greedy `.*`s make the match run to the last closing brace of the
string), and exists iff the last closing brace lies beyond the first
`"number"` occurrence after the first opening brace. -/
def extractRaw (stdout : String) : Option String :=
  let cs := stdout.toList
  match findSub [Char.ofNat 123] cs with
  | none => none
  | some i =>
    match findSub quoteNumber (cs.drop (i + 1)) with
    | none => none
    | some d =>
      match lastIdxOf (Char.ofNat 125) cs with
      | none => none
      | some q =>
        if i + 1 + d + 8 ≤ q then some ⟨(cs.drop i).take (q - i + 1)⟩
        else none

/-- What one call of `generate_section_via_agent` produces: the returned
value, the content written to `section_<n>_output_debug.txt` (if any),
and the section dict written to `section_<n>_generated.json` on the
stdout-parsing success path (if any). -/
structure AgentOutcome where
  result : Option SectionJson
  debugWrite : Option String
  sectionFileWrite : Option SectionJson
deriving DecidableEq, Repr

/-- `generate_section_via_agent`, for one section.  `returncode` is the
CLI's exit code, `fileContent` the content of
`section_<n>_generated.json` when that file exists after the call
(`none` when it does not), `stdout` the CLI's captured stdout. -/
def generate_section_via_agent (parse : String → Option SectionJson)
    (returncode : Int) (fileContent : Option String) (stdout : String) :
    AgentOutcome :=
  if returncode ≠ 0 then ⟨none, none, none⟩
  else
    match fileContent with
    | some c =>
      match parse c with
      | some s => ⟨some s, none, none⟩
      | none => ⟨none, none, none⟩
    | none =>
      match extractFenced stdout with
      | some js =>
        match parse js with
        | some s => ⟨some s, none, some s⟩
        | none => ⟨none, some js, none⟩
      | none =>
        match extractRaw stdout with
        | some js =>
          match parse js with
          | some s => ⟨some s, none, some s⟩
          | none => ⟨none, some js, none⟩
        | none => ⟨none, some stdout, none⟩

/-- C3 exactly as the claim states it, at one input: the file wins when
it exists, then the fenced block, then the raw brace substring, and
whenever no source yields parsable JSON the raw stdout is written to the
debug file and `None` is returned. -/
def claimC3At (parse : String → Option SectionJson) (returncode : Int)
    (fileContent : Option String) (stdout : String) : Prop :=
  (∀ c, fileContent = some c →
    (generate_section_via_agent parse returncode fileContent
      stdout).result = parse c) ∧
  (fileContent = none → ∀ js, extractFenced stdout = some js →
    (generate_section_via_agent parse returncode fileContent
      stdout).result = parse js) ∧
  (fileContent = none → extractFenced stdout = none →
    ∀ js, extractRaw stdout = some js →
    (generate_section_via_agent parse returncode fileContent
      stdout).result = parse js) ∧
  ((generate_section_via_agent parse returncode fileContent
      stdout).result = none →
    (generate_section_via_agent parse returncode fileContent
      stdout).debugWrite = some stdout)

/-- A parse oracle that rejects everything (e.g. the file holds invalid
JSON and `json.load` raises on every input). -/
def parseNone : String → Option SectionJson := fun _ => none

/-- C3 counterexample: when `section_<n>_generated.json` exists but does
not parse, the code returns `None` without writing anything to the debug
file, while the claim's final clause requires the raw stdout to be
written; so the claim as stated fails at this input. -/
theorem C3_counterexample :
    ¬ claimC3At parseNone 0 (some "not json") "stdout text" := by
  intro h
  have hres : (generate_section_via_agent parseNone 0 (some "not json")
      "stdout text").result = none := rfl
  have hd := h.2.2.2 hres
  exact absurd hd (by decide)

/-- C3 (amended): with exit code 0, the result is determined in the fixed
order the claim gives — existing file first (its parse result is
returned, `None` if it fails to parse, and stdout is never consulted and
nothing is written), then the ```json-fenced block of stdout, then the
raw brace-delimited substring containing `"number"`; when no block is
found at all, the raw stdout is written to the debug file and `None` is
returned; when an extracted block fails to parse, that extracted block
(not the full stdout) is written to the debug file and `None` is
returned; and a non-zero exit code yields `None` with no reads or
writes at all. -/
theorem C3_agent_order (parse : String → Option SectionJson)
    (fileContent : Option String) (stdout : String) :
    ((∀ c, fileContent = some c →
        generate_section_via_agent parse 0 fileContent stdout =
          ⟨parse c, none, none⟩) ∧
      (∀ c, fileContent = some c → ∀ stdout',
        generate_section_via_agent parse 0 fileContent stdout' =
          generate_section_via_agent parse 0 fileContent stdout) ∧
      (fileContent = none → ∀ js, extractFenced stdout = some js →
        generate_section_via_agent parse 0 fileContent stdout =
          match parse js with
          | some s => ⟨some s, none, some s⟩
          | none => ⟨none, some js, none⟩) ∧
      (fileContent = none → extractFenced stdout = none →
        ∀ js, extractRaw stdout = some js →
        generate_section_via_agent parse 0 fileContent stdout =
          match parse js with
          | some s => ⟨some s, none, some s⟩
          | none => ⟨none, some js, none⟩) ∧
      (fileContent = none → extractFenced stdout = none →
        extractRaw stdout = none →
        generate_section_via_agent parse 0 fileContent stdout =
          ⟨none, some stdout, none⟩)) ∧
    (∀ rc : Int, rc ≠ 0 →
      generate_section_via_agent parse rc fileContent stdout =
        ⟨none, none, none⟩) := by
  refine ⟨⟨?_, ?_, ?_, ?_, ?_⟩, ?_⟩
  · intro c hc
    subst hc
    cases hp : parse c <;>
      simp [generate_section_via_agent, hp]
  · intro c hc stdout'
    subst hc
    cases hp : parse c <;>
      simp [generate_section_via_agent, hp]
  · intro hfile js hjs
    subst hfile
    cases hp : parse js <;>
      simp [generate_section_via_agent, hjs, hp]
  · intro hfile hfen js hjs
    subst hfile
    cases hp : parse js <;>
      simp [generate_section_via_agent, hfen, hjs, hp]
  · intro hfile hfen hraw
    subst hfile
    simp [generate_section_via_agent, hfen, hraw]
  · intro rc hrc
    simp [generate_section_via_agent, hrc]

/-- Witness for `C3_agent_order` at concrete inputs: an unparsable
existing file yields `None` with no debug write, and stdout with no
extractable JSON is dumped to the debug file. -/
theorem C3_witness :
    generate_section_via_agent parseNone 0 (some "x") "out" =
        ⟨none, none, none⟩ ∧
      generate_section_via_agent parseNone 0 none "no json here" =
        ⟨none, some "no json here", none⟩ := by
  constructor
  · exact (C3_agent_order parseNone (some "x") "out").1.1 "x" rfl
  · exact (C3_agent_order parseNone none "no json here").1.2.2.2.2 rfl
      (by decide) (by decide)

/-! ## C6 — `transcribe_video` (`src/video_processing.py`, lines 89-180)

The filesystem is modelled as the state of the temporary chunk directory
(whether it exists, and the chunk files inside it); the external calls —
`chunk_video` (ffprobe/ffmpeg) and the per-chunk/whole-file Whisper API
calls — are outcome oracles. -/

/-- `VIDEO_EXTENSIONS` of `video_processing.py`. -/
def VIDEO_EXTENSIONS : List String :=
  [".mp4", ".mov", ".avi", ".mkv", ".webm", ".m4a", ".mp3", ".wav"]

/-- `max_size = 25 * 1024 * 1024`. -/
def whisperMaxSize : Nat := 25 * 1024 * 1024

/-- The temporary chunk directory's state. -/
structure FsState where
  tempDirExists : Bool
  chunkFiles : List String
deriving DecidableEq, Repr

/-- `finally: if temp_dir.exists(): shutil.rmtree(temp_dir)`. -/
def cleanupTempDir (s : FsState) : FsState :=
  if s.tempDirExists then ⟨false, []⟩ else s

/-- `try ... finally ...` with explicit filesystem-state threading: the
`finally` block runs on the state left by the body, whether the body
returned or raised. -/
def tryFinallyFs (body : FsState → Except String String × FsState)
    (fin : FsState → FsState) (s : FsState) :
    Except String String × FsState :=
  let r := body s
  (r.1, fin r.2)

/-- The body of the large-file `try`: `chunk_video` either raises —
having already created the chunk files made before the failure — or
returns the chunk list; then each chunk is transcribed, per-chunk
failures being caught, logged and skipped (`continue`), and the surviving
transcripts joined with `"\n\n"`. -/
def largeFileBody
    (chunkOutcome : Except (String × List String) (List String))
    (chunkTranscribe : String → Except String String) (s : FsState) :
    Except String String × FsState :=
  match chunkOutcome with
  | .error e => (.error e.1, {s with chunkFiles := s.chunkFiles ++ e.2})
  | .ok chunks =>
    let transcripts := chunks.filterMap fun c =>
      (chunkTranscribe c).toOption
    (.ok (String.intercalate "\n\n" transcripts),
      {s with chunkFiles := s.chunkFiles ++ chunks})

/-- `transcribe_video(filepath, api_key)`: existence and extension
guards, then either the chunking path (creating the temporary directory,
with `try/finally` cleanup and the outer `except` re-raise) for files
over 25MB, or direct transcription.  Returns the transcript-or-error and
the final temporary-directory state (initially absent). -/
def transcribe_video (fileExists : Bool) (fileSize : Nat) (ext : String)
    (chunkOutcome : Except (String × List String) (List String))
    (chunkTranscribe : String → Except String String)
    (smallTranscribe : Except String String) :
    Except String String × FsState :=
  let s0 : FsState := ⟨false, []⟩
  if ¬ fileExists then (.error "Video file not found", s0)
  else if ¬ (ext ∈ VIDEO_EXTENSIONS) then
    (.error "Unsupported video/audio format", s0)
  else
    if fileSize > whisperMaxSize then
      let s1 : FsState := ⟨true, []⟩
      let r := tryFinallyFs (largeFileBody chunkOutcome chunkTranscribe)
        cleanupTempDir s1
      match r.1 with
      | .ok t => (.ok t, r.2)
      | .error e => (.error ("Video transcription failed: " ++ e), r.2)
    else
      match smallTranscribe with
      | .ok t => (.ok t, s0)
      | .error e => (.error ("Video transcription failed: " ++ e), s0)

/-- C6: for every video/audio file over `25*1024*1024` bytes, once
`transcribe_video` finishes — returning a transcript or propagating an
exception from chunking or transcription — the temporary chunk directory
no longer exists (and no chunk file survives). -/
theorem C6_temp_dir_cleanup (fileExists : Bool) (fileSize : Nat)
    (ext : String)
    (chunkOutcome : Except (String × List String) (List String))
    (chunkTranscribe : String → Except String String)
    (smallTranscribe : Except String String)
    (hsize : fileSize > 25 * 1024 * 1024) :
    ((transcribe_video fileExists fileSize ext chunkOutcome
        chunkTranscribe smallTranscribe).2.tempDirExists = false) ∧
    ((transcribe_video fileExists fileSize ext chunkOutcome
        chunkTranscribe smallTranscribe).2.chunkFiles = []) := by
  have hsize' : fileSize > whisperMaxSize := hsize
  cases fileExists with
  | false => exact ⟨rfl, rfl⟩
  | true =>
    by_cases hext : ext ∈ VIDEO_EXTENSIONS
    · cases chunkOutcome with
      | error e =>
        simp [transcribe_video, hext, hsize', tryFinallyFs,
          cleanupTempDir, largeFileBody]
      | ok chunks =>
        simp [transcribe_video, hext, hsize', tryFinallyFs,
          cleanupTempDir, largeFileBody]
    · simp [transcribe_video, hext]

/-- Witness for `C6_temp_dir_cleanup` at a concrete input: a 26MB `.mp4`
whose chunking fails after creating one chunk file still ends with the
temporary directory removed. -/
theorem C6_witness :
    (transcribe_video true (26 * 1024 * 1024) ".mp4"
        (Except.error ("ffmpeg failed", ["chunk_000.m4a"]))
        (fun _ => Except.error "api error")
        (Except.ok "t")).2.tempDirExists = false ∧
    (transcribe_video true (26 * 1024 * 1024) ".mp4"
        (Except.error ("ffmpeg failed", ["chunk_000.m4a"]))
        (fun _ => Except.error "api error")
        (Except.ok "t")).2.chunkFiles = [] :=
  C6_temp_dir_cleanup true (26 * 1024 * 1024) ".mp4"
    (Except.error ("ffmpeg failed", ["chunk_000.m4a"]))
    (fun _ => Except.error "api error") (Except.ok "t") (by norm_num)

/-! ## C7 — `download_sharepoint_files`
(`sharepoint_graph_client.py`, lines 381-493)

The Graph API is modelled by oracles: `searchResults` is what
`search_folders` returned, `getItems` is `get_folder_items`, and
`downloadFrom` is `download_folder_files` (folder id and local directory
to the list of download records).  Besides the result dict the model
returns the folders the loop processed and the `download_folder_files`
invocations it made. -/

/-- A folder record from `search_folders`. -/
structure SPFolder where
  id : String
  name : String
deriving DecidableEq, Repr

/-- An item record from `get_folder_items` (field `type` of the Python
dict is `itemType` here: `"folder"` or `"file"`). -/
structure SPItem where
  id : String
  name : String
  itemType : String
deriving DecidableEq, Repr

/-- A download record from `download_file`. -/
structure DownloadInfo where
  name : String
  local_path : String
deriving DecidableEq, Repr

/-- The result dict of `download_sharepoint_files`. -/
structure SPResult where
  search_string : String
  matching_folders : List SPFolder
  downloaded_files : List DownloadInfo
  total_files_downloaded : Nat
  local_downloads_path : String
deriving DecidableEq, Repr

/-- One iteration of the `for folder_info in matching_folders` loop: find
the `mentoring` subfolder (`item["type"] == "folder" and
item["name"].lower() == "mentoring"`, with `break`), and download from it
recursively into `downloads_dir / folder name`; a folder without one is
skipped.  Returns the downloads and the download invocations made. -/
def processFolder (getItems : String → List SPItem)
    (downloadFrom : String → String → List DownloadInfo)
    (downloadsDir : String) (folder : SPFolder) :
    List DownloadInfo × List (String × String) :=
  let items := getItems folder.id
  match items.find? (fun it =>
      it.itemType = "folder" ∧ pyLower it.name = "mentoring") with
  | some m =>
    let localDir := downloadsDir ++ "/" ++ folder.name
    (downloadFrom m.id localDir, [(m.id, localDir)])
  | none => ([], [])

/-- `download_sharepoint_files(search_string, ...)`: name-filter the
search results (content/metadata hits whose folder name does not contain
the search string case-insensitively are dropped), short-circuit on an
empty filter, otherwise process each matching folder. -/
def download_sharepoint_files (search_string : String)
    (searchResults : List SPFolder) (getItems : String → List SPItem)
    (downloadFrom : String → String → List DownloadInfo) :
    SPResult × List SPFolder × List (String × String) :=
  let matching_folders := searchResults.filter
    (fun f => strContains (pyLower f.name) (pyLower search_string))
  if matching_folders = [] then
    (⟨search_string, [], [], 0, ""⟩, [], [])
  else
    let downloads_dir := "downloads/" ++ search_string
    let steps := matching_folders.map
      (processFolder getItems downloadFrom downloads_dir)
    let all_downloaded_files := (steps.map Prod.fst).flatten
    (⟨search_string, matching_folders, all_downloaded_files,
        all_downloaded_files.length, downloads_dir⟩,
      matching_folders, (steps.map Prod.snd).flatten)

/-- C7: `download_sharepoint_files` processes only folders whose name
contains the search string case-insensitively (the processed-folder list
equals the name-filtered search results, so content/metadata-only hits
are dropped), and when no folder passes the filter it returns
`matching_folders = []`, `downloaded_files = []`,
`total_files_downloaded = 0` and an empty `local_downloads_path`,
invoking no download at all. -/
theorem C7_name_filter (search_string : String)
    (searchResults : List SPFolder) (getItems : String → List SPItem)
    (downloadFrom : String → String → List DownloadInfo) :
    ((download_sharepoint_files search_string searchResults getItems
        downloadFrom).2.1 =
      searchResults.filter
        (fun f => strContains (pyLower f.name) (pyLower search_string))) ∧
    ((download_sharepoint_files search_string searchResults getItems
        downloadFrom).1.matching_folders =
      searchResults.filter
        (fun f => strContains (pyLower f.name) (pyLower search_string))) ∧
    (searchResults.filter
        (fun f => strContains (pyLower f.name) (pyLower search_string))
        = [] →
      download_sharepoint_files search_string searchResults getItems
          downloadFrom =
        (⟨search_string, [], [], 0, ""⟩, [], [])) := by
  by_cases hempty : searchResults.filter
      (fun f => strContains (pyLower f.name) (pyLower search_string)) = []
  · refine ⟨?_, ?_, fun _ => ?_⟩ <;>
      simp [download_sharepoint_files, hempty]
  · refine ⟨?_, ?_, fun h => absurd h hempty⟩ <;>
      simp [download_sharepoint_files, hempty]

/-- Witness for `C7_name_filter` at a concrete input: a single search hit
whose folder name does not contain the AFM (a content-match false
positive) yields the empty result without any download invocation. -/
theorem C7_witness :
    download_sharepoint_files "123456789" [⟨"id1", "Unrelated Folder"⟩]
        (fun _ => []) (fun _ _ => []) =
      (⟨"123456789", [], [], 0, ""⟩, [], []) :=
  (C7_name_filter "123456789" [⟨"id1", "Unrelated Folder"⟩]
    (fun _ => []) (fun _ _ => [])).2.2 (by decide)

/-! ## C8 — `render_report` (`render_report.py`, lines 15-48)

The loaded JSON is a string-keyed dict of JSON values; Jinja2's
`template.render(**data)` receives exactly the final dict, so the model
returns that dict (the template context) and the claim is stated about
it.  `datetime.now()` is passed in as `today`. -/

/-- A JSON value, as loaded by `json.load`. -/
inductive JVal where
  | str : String → JVal
  | num : Int → JVal
  | bool : Bool → JVal
  | null : JVal
  | arr : List JVal → JVal
  | obj : List (String × JVal) → JVal

/-- Python dict assignment `d[k] = v`: overwrite in place, or append a
new key. -/
def dictSet : List (String × JVal) → String → JVal →
    List (String × JVal)
  | [], k, v => [(k, v)]
  | (k', v') :: rest, k, v =>
    if k' = k then (k, v) :: rest else (k', v') :: dictSet rest k v

/-- Python dict lookup `d[k]` (as an `Option`). -/
def dictGet : List (String × JVal) → String → Option JVal
  | [], _ => none
  | (k', v) :: rest, k => if k' = k then some v else dictGet rest k

/-- The standard base64 alphabet used by `base64.b64encode`. -/
def b64Alphabet : List Char :=
  "ABCDEFGHIJKLMNOPQRSTUVWXYZabcdefghijklmnopqrstuvwxyz0123456789+/".toList

/-- The character for one 6-bit group (the default is unreachable for
inputs below 64). -/
def b64Char (n : Nat) : Char := b64Alphabet.getD n 'A'

/-- `base64.b64encode` on a byte string (bytes as `Nat`s, reduced mod
256), with `=` padding. -/
def b64encodeBytes : List Nat → List Char
  | [] => []
  | [b0] =>
    let x := b0 % 256
    [b64Char (x / 4), b64Char (x % 4 * 16), '=', '=']
  | [b0, b1] =>
    let x := b0 % 256
    let y := b1 % 256
    [b64Char (x / 4), b64Char (x % 4 * 16 + y / 16),
      b64Char (y % 16 * 4), '=']
  | b0 :: b1 :: b2 :: rest =>
    let x := b0 % 256
    let y := b1 % 256
    let z := b2 % 256
    b64Char (x / 4) :: b64Char (x % 4 * 16 + y / 16) ::
      b64Char (y % 16 * 4 + z / 64) :: b64Char (z % 64) ::
      b64encodeBytes rest

/-- `load_logo(logo_path)`: the base64 encoding of the file's bytes when
the logo file exists (`logoBytes = some bs`), the empty string when it
does not. -/
def load_logo (logoBytes : Option (List Nat)) : String :=
  match logoBytes with
  | some bs => ⟨b64encodeBytes bs⟩
  | none => ""

/-- `%d` / `%m`: zero-padded to two digits. -/
def pad2 (n : Nat) : String :=
  if n < 10 then "0" ++ toString n else toString n

/-- `%Y`: zero-padded to four digits. -/
def pad4 (n : Nat) : String :=
  if n < 10 then "000" ++ toString n
  else if n < 100 then "00" ++ toString n
  else if n < 1000 then "0" ++ toString n
  else toString n

/-- A calendar date, standing in for `datetime.now()`. -/
structure PyDate where
  day : Nat
  month : Nat
  year : Nat
deriving DecidableEq, Repr

/-- `datetime.now().strftime("%d/%m/%Y")`. -/
def strftimeDMY (d : PyDate) : String :=
  pad2 d.day ++ "/" ++ pad2 d.month ++ "/" ++ pad4 d.year

/-- `render_report(json_path, output_path, template_path, logo_path)`
reduced to its template context: load the JSON dict, set
`generated_date` and `logo_base64`, and hand the dict to the template. -/
def render_report (data : List (String × JVal))
    (logoBytes : Option (List Nat)) (today : PyDate) :
    List (String × JVal) :=
  let logo_base64 := load_logo logoBytes
  let data1 := dictSet data "generated_date" (.str (strftimeDMY today))
  dictSet data1 "logo_base64" (.str logo_base64)

theorem dictGet_dictSet_same (d : List (String × JVal)) (k : String)
    (v : JVal) : dictGet (dictSet d k v) k = some v := by
  induction d with
  | nil => simp [dictSet, dictGet]
  | cons kv rest ih =>
    obtain ⟨k', v'⟩ := kv
    by_cases h : k' = k <;> simp [dictSet, dictGet, h, ih]

theorem dictGet_dictSet_other (d : List (String × JVal)) (k : String)
    (v : JVal) (k'' : String) (h : k'' ≠ k) :
    dictGet (dictSet d k v) k'' = dictGet d k'' := by
  induction d with
  | nil =>
    have hne : ¬ k = k'' := fun he => h he.symm
    simp [dictSet, dictGet, hne]
  | cons kv rest ih =>
    obtain ⟨k', v'⟩ := kv
    by_cases hk : k' = k
    · subst hk
      have hne : ¬ k' = k'' := fun he => h he.symm
      simp [dictSet, dictGet, hne]
    · simp [dictSet, dictGet, hk, ih]

/-- C8: before rendering, `render_report` sets the template variable
`generated_date` to the current date as zero-padded `day/month/year` and
`logo_base64` to the base64 encoding of the logo file's bytes when the
logo file exists and to the empty string when it does not; every other
key of the loaded JSON data reaches the template unchanged. -/
theorem C8_render_context (data : List (String × JVal))
    (logoBytes : Option (List Nat)) (today : PyDate) :
    (dictGet (render_report data logoBytes today) "generated_date" =
      some (JVal.str (pad2 today.day ++ "/" ++ pad2 today.month ++ "/" ++
        pad4 today.year))) ∧
    (dictGet (render_report data logoBytes today) "logo_base64" =
      some (JVal.str (match logoBytes with
        | some bs => String.mk (b64encodeBytes bs)
        | none => ""))) ∧
    (∀ k, k ≠ "generated_date" → k ≠ "logo_base64" →
      dictGet (render_report data logoBytes today) k = dictGet data k) := by
  refine ⟨?_, ?_, ?_⟩
  · rw [render_report]
    rw [dictGet_dictSet_other _ _ _ _ (by decide), dictGet_dictSet_same]
    rfl
  · rw [render_report, dictGet_dictSet_same]
    cases logoBytes <;> rfl
  · intro k h1 h2
    rw [render_report,
      dictGet_dictSet_other _ _ _ _ h2,
      dictGet_dictSet_other _ _ _ _ h1]

/-- Witness for `C8_render_context` at a concrete input: an unrelated key
survives untouched and the date is rendered zero-padded. -/
theorem C8_witness :
    (dictGet (render_report [("company_name", JVal.str "ACME")]
        (some [77, 97]) ⟨7, 3, 2026⟩) "company_name" =
      some (JVal.str "ACME")) ∧
    (dictGet (render_report [("company_name", JVal.str "ACME")]
        (some [77, 97]) ⟨7, 3, 2026⟩) "generated_date" =
      some (JVal.str "07/03/2026")) := by
  constructor
  · exact (C8_render_context [("company_name", JVal.str "ACME")]
      (some [77, 97]) ⟨7, 3, 2026⟩).2.2 "company_name" (by decide)
      (by decide)
  · rw [(C8_render_context [("company_name", JVal.str "ACME")]
      (some [77, 97]) ⟨7, 3, 2026⟩).1]
    rfl

end ClaudeMentor
